import Mathlib

/-!
Shallow embedding of `src/src/lib.rs` (module `image`) of the
`master_image_helper` repository, together with theorems settling the
spec claims about `ImageData::get_pixel_at`.

Modelling conventions:
 - Rust `u8` buffer entries become `Fin 256`; `usize` values become `Nat`.
 - A buffer read `self.pixels[i]` that would panic (index out of bounds)
   is modelled by `List.get?`, so `get_pixel_at` returns `Option PixelData`;
   `none` marks a run that panics in Rust.
 - The offset computation
   `(f64::from((y*width + x) as u32 * elements) * (f64::from(bits)/8.0)) as usize`
   is embedded as exact integer arithmetic: the `as u32` cast and the `u32`
   multiplication reduce modulo 2^32; the wrapped product `p` is below 2^32,
   `f64::from p` is exact, `bits/8.0` is the dyadic rational 2^(k-3) for
   `bits` in \x7b1,2,4,8,16\x7d, so `p * (bits/8.0)` is an exact dyadic below
   2^53 and the `as usize` truncation yields exactly `p * bits / 8` in
   truncating natural division.  The embedding is therefore bit-for-bit
   faithful to the IEEE-754 double computation.
-/

namespace MasterImageHelper

/-- `png::ColorType` restricted to the variants matched in `lib.rs`. -/
inductive ColorType where
  | Grayscale
  | Rgb
  | Indexed
  | GrayscaleAlpha
  | Rgba
deriving DecidableEq

/-- `png::BitDepth`. -/
inductive BitDepth where
  | One
  | Two
  | Four
  | Eight
  | Sixteen
deriving DecidableEq

/-- The numeric value of a `png::BitDepth` (`self.bit_depth as u32` in Rust). -/
def BitDepth.bits : BitDepth → Nat
  | .One => 1
  | .Two => 2
  | .Four => 4
  | .Eight => 8
  | .Sixteen => 16

/-- The `elements` count computed from `self.color` in `get_pixel_at`. -/
def ColorType.elements : ColorType → Nat
  | .Rgba => 4
  | .Rgb => 3
  | .GrayscaleAlpha => 2
  | .Grayscale => 1
  | .Indexed => 1

/-- `struct ImageData`: width, height, color model, bit depth and the decoded
byte buffer (`Vec<u8>` becomes `List (Fin 256)`). -/
structure ImageData where
  width : Nat
  height : Nat
  color : ColorType
  bit_depth : BitDepth
  pixels : List (Fin 256)
deriving DecidableEq

/-- `struct PixelData`: the bit depth tag and the four channel values
(`usize` channels become `Nat`). -/
structure PixelData where
  bit_depth : BitDepth
  r : Nat
  g : Nat
  b : Nat
  a : Nat
deriving DecidableEq

/-- The sentinel pixel `PixelData::new(BitDepth::Eight, 0, 0, 0, 0)`. -/
def sentinel : PixelData := ⟨.Eight, 0, 0, 0, 0⟩

/-- `b >> 4` on a `u8`: the high nibble. -/
def shr4 (b : Fin 256) : Nat := b.val / 16

/-- `b << 4 >> 4` on a `u8`: the shift left wraps modulo 256, so this is the
low nibble. -/
def shl4shr4 (b : Fin 256) : Nat := b.val * 16 % 256 / 16

/-- `b >> 4 << 4` on a `u8`: the high nibble moved back to the high position
(a multiple of 16 in 0..240). -/
def shr4shl4 (b : Fin 256) : Nat := b.val / 16 * 16 % 256

/-- The byte offset computed at the top of `get_pixel_at`:
`(f64::from((y * self.width + x) as u32 * elements) * bytes) as usize`
with `bytes = f64::from(self.bit_depth as u32) / 8.0`.  The float arithmetic
is exact here (see the module comment), so the value is the wrapped `u32`
product times `bits`, divided by 8 with truncation. -/
def ImageData.pixelIndex (img : ImageData) (x y : Nat) : Nat :=
  (y * img.width + x) % 2 ^ 32 * img.color.elements % 2 ^ 32 * img.bit_depth.bits / 8

/-- `ImageData::get_pixel_at`.  Returns `none` exactly when the Rust code
would panic on an out-of-bounds buffer index (the bounds check only fires
when `index > pixels.len()`, and never accounts for the extra bytes the
selected format reads past `index`). -/
def ImageData.get_pixel_at (img : ImageData) (x y : Nat) : Option PixelData :=
  let index := img.pixelIndex x y
  if index > img.pixels.length then
    some sentinel
  else
    match img.bit_depth, img.color with
    | .Eight, .Rgba => do
        let b0 ← img.pixels.get? index
        let b1 ← img.pixels.get? (index + 1)
        let b2 ← img.pixels.get? (index + 2)
        let b3 ← img.pixels.get? (index + 3)
        some ⟨.Eight, b0.val, b1.val, b2.val, b3.val⟩
    | .Eight, .Rgb => do
        let b0 ← img.pixels.get? index
        let b1 ← img.pixels.get? (index + 1)
        let b2 ← img.pixels.get? (index + 2)
        some ⟨.Eight, b0.val, b1.val, b2.val, 1⟩
    | .Eight, .Grayscale => do
        let b0 ← img.pixels.get? index
        some ⟨.Eight, b0.val, 0, 0, 0⟩
    | .Eight, .GrayscaleAlpha => do
        let b0 ← img.pixels.get? index
        let b1 ← img.pixels.get? (index + 1)
        some ⟨.Eight, b0.val, 0, 0, b1.val⟩
    | .Eight, .Indexed => do
        let b0 ← img.pixels.get? index
        some ⟨.Eight, b0.val, 0, 0, 0⟩
    | .Four, .Rgba => do
        let b0 ← img.pixels.get? index
        let b1 ← img.pixels.get? (index + 1)
        some ⟨.Four, shr4 b0, shl4shr4 b0, shr4 b1, shr4shl4 b1⟩
    | .Four, .Rgb => do
        let b0 ← img.pixels.get? index
        let b1 ← img.pixels.get? (index + 1)
        some ⟨.Four, shr4 b0, shl4shr4 b0, shr4 b1, 0⟩
    | .Four, .Grayscale => do
        let b0 ← img.pixels.get? index
        some ⟨.Four, shr4 b0, 0, 0, 0⟩
    | .Four, .GrayscaleAlpha => do
        let b0 ← img.pixels.get? index
        some ⟨.Four, shr4 b0, 0, 0, shl4shr4 b0⟩
    | .Four, .Indexed => do
        let b0 ← img.pixels.get? index
        some ⟨.Four, shr4 b0, 0, 0, 0⟩
    | _, _ => some sentinel

end MasterImageHelper

namespace MasterImageHelper

/-! ### Concrete images used as failing inputs, counterexamples and witnesses -/

/-- An 8-bit grayscale image whose buffer is truncated to zero bytes
(the decoder contract allows short buffers). -/
def imgTrunc : ImageData := ⟨1, 1, .Grayscale, .Eight, []⟩

/-- A 4-bit RGBA image of width 2, height 1 with buffer `[0xAB, 0xCD]`. -/
def imgNibble : ImageData := ⟨2, 1, .Rgba, .Four, [0xAB, 0xCD]⟩

/-- An 8-bit RGB image of width 1, height 1 with buffer `[7, 8, 9]`. -/
def imgRgb8 : ImageData := ⟨1, 1, .Rgb, .Eight, [7, 8, 9]⟩

/-- An 8-bit grayscale image with buffer `[42]`. -/
def imgGray8 : ImageData := ⟨1, 1, .Grayscale, .Eight, [42]⟩

/-- An 8-bit RGBA image with an empty buffer, used to exercise the bounds
fallback. -/
def imgEmptyRgba : ImageData := ⟨1, 1, .Rgba, .Eight, []⟩

/-- A 16-bit RGBA image (unsupported depth). -/
def imgSixteen : ImageData := ⟨1, 1, .Rgba, .Sixteen, []⟩

/-- A 3×2 8-bit RGB image used as the C9 witness input. -/
def imgNine : ImageData := ⟨3, 2, .Rgb, .Eight, []⟩

/-! ### Helper lemmas -/

/-- Every color model maps to at most 4 channel elements. -/
theorem ColorType.elements_le (c : ColorType) : c.elements ≤ 4 := by
  cases c <;> decide

/-- Every color model maps to at least 1 channel element. -/
theorem ColorType.elements_pos (c : ColorType) : 1 ≤ c.elements := by
  cases c <;> decide

/-- Wrapping the linear pixel index to `u32` before the `u32` multiplication
by the channel count is the same as wrapping the exact product once. -/
theorem mod32_mul_mod (n e : Nat) (he : e ≤ 4) :
    n % 2 ^ 32 * e % 2 ^ 32 = n * e % 2 ^ 32 := by
  have h5 : e = 0 ∨ e = 1 ∨ e = 2 ∨ e = 3 ∨ e = 4 := by omega
  rcases h5 with rfl | rfl | rfl | rfl | rfl <;> omega

end MasterImageHelper

namespace MasterImageHelper

/-! ### Claim theorems -/

/-- Claim C1 (code bug): `get_pixel_at` is NOT total on short buffers.
On the truncated 8-bit grayscale image with an empty buffer, the bounds
check `index > pixels.len()` passes (0 > 0 is false) and the code then
indexes `pixels[0]` out of bounds, panicking; the embedding returns `none`
instead of a pixel. -/
theorem C1_truncated_buffer_panics : imgTrunc.get_pixel_at 0 0 = none := by decide

/-- Claim C2 (code bug): for the 4-bit RGBA image of width 2, height 1 with
buffer `[0xAB, 0xCD]`, `get_pixel_at(0,0)` yields `r=0xA, g=0xB, b=0xC` as
the spec says, but the alpha channel is computed as
`pixels[index+1] >> 4 << 4 = 0xC0`, not the low nibble `0xD` the spec
states: the shift pair is transposed relative to the low-nibble idiom
`<< 4 >> 4` used for `g` and for the GrayscaleAlpha alpha. -/
theorem C2_four_bit_rgba_alpha_transposed :
    imgNibble.get_pixel_at 0 0 = some ⟨.Four, 0xA, 0xB, 0xC, 0xC0⟩ ∧
      (0xC0 : Nat) ≠ 0xD := by decide

/-- Claim C3 (code bug): the channel-range invariant fails for the 4-bit
RGBA alpha channel: the pixel decoded at 4-bit depth from buffer
`[0xAB, 0xCD]` carries a = 192 > 15. All other channels and branches do
respect the bound; the violation comes from the transposed shift of C2. -/
theorem C3_four_bit_alpha_exceeds_range :
    ∃ p : PixelData, imgNibble.get_pixel_at 0 0 = some p ∧
      p.bit_depth = .Four ∧ 15 < p.a :=
  ⟨⟨.Four, 0xA, 0xB, 0xC, 0xC0⟩, by decide, by decide, by decide⟩

/-- Claim C4 (confirmed): whenever the computed byte offset strictly exceeds
the buffer length, `get_pixel_at` returns the sentinel pixel
`{bit_depth: Eight, r:0, g:0, b:0, a:0}` for every color model and bit
depth; the early return happens before any buffer read. -/
theorem C4_bounds_fallback (img : ImageData) (x y : Nat)
    (h : img.pixelIndex x y > img.pixels.length) :
    img.get_pixel_at x y = some sentinel := by
  unfold ImageData.get_pixel_at
  simp only [gt_iff_lt]
  rw [if_pos h]

/-- Witness for C4 at a concrete input: the empty-buffer 8-bit RGBA image
with x = 1 gives offset 4 > 0. -/
theorem C4_bounds_fallback_witness :
    imgEmptyRgba.pixelIndex 1 0 > imgEmptyRgba.pixels.length ∧
      imgEmptyRgba.get_pixel_at 1 0 = some sentinel :=
  ⟨by decide, C4_bounds_fallback imgEmptyRgba 1 0 (by decide)⟩

/-- Claim C6 (confirmed): for any bit depth other than Four or Eight,
`get_pixel_at` returns the sentinel pixel for every coordinate and every
color model, and never fails: both the bounds-fallback branch and the
catch-all depth branch produce the same sentinel. -/
theorem C6_unsupported_depth_sentinel (img : ImageData) (x y : Nat)
    (h4 : img.bit_depth ≠ .Four) (h8 : img.bit_depth ≠ .Eight) :
    img.get_pixel_at x y = some sentinel := by
  obtain ⟨w, h, c, bd, px⟩ := img
  cases bd <;> cases c <;>
    first
      | exact absurd rfl h4
      | exact absurd rfl h8
      | simp [ImageData.get_pixel_at]

/-- Witness for C6 at a concrete input: a 16-bit RGBA image. -/
theorem C6_unsupported_depth_sentinel_witness :
    imgSixteen.bit_depth ≠ .Four ∧ imgSixteen.bit_depth ≠ .Eight ∧
      imgSixteen.get_pixel_at 0 0 = some sentinel :=
  ⟨by decide, by decide,
    C6_unsupported_depth_sentinel imgSixteen 0 0 (by decide) (by decide)⟩

/-- Claim C9 (confirmed): the computed byte offset equals the exact value
`(y*width + x) * elements * bits / 8` whenever the product
`(y*width + x) * elements` fits in a `u32`, and in general equals the same
formula with the product first reduced modulo 2^32 (the `as u32` cast and
`u32` multiplication); the floating-point steps are exact at these
magnitudes, so only the 32-bit truncation separates the code from exact
integer arithmetic. -/
theorem C9_offset_u32_truncation (img : ImageData) (x y : Nat) :
    img.pixelIndex x y =
      (y * img.width + x) * img.color.elements % 2 ^ 32 * img.bit_depth.bits / 8 ∧
    ((y * img.width + x) * img.color.elements < 2 ^ 32 →
      img.pixelIndex x y =
        (y * img.width + x) * img.color.elements * img.bit_depth.bits / 8) := by
  constructor
  · unfold ImageData.pixelIndex
    rw [mod32_mul_mod _ _ (ColorType.elements_le _)]
  · intro hlt
    unfold ImageData.pixelIndex
    rw [mod32_mul_mod _ _ (ColorType.elements_le _), Nat.mod_eq_of_lt hlt]

/-- Witness for C9 at a concrete input: the 3×2 8-bit RGB image at
(x, y) = (1, 1), where the linear index 4 times 3 channels fits in `u32`. -/
theorem C9_offset_u32_truncation_witness :
    (imgNine.pixelIndex 1 1 =
      (1 * imgNine.width + 1) * imgNine.color.elements % 2 ^ 32 *
        imgNine.bit_depth.bits / 8) ∧
    imgNine.pixelIndex 1 1 =
      (1 * imgNine.width + 1) * imgNine.color.elements * imgNine.bit_depth.bits / 8 :=
  ⟨(C9_offset_u32_truncation imgNine 1 1).1,
    (C9_offset_u32_truncation imgNine 1 1).2 (by decide)⟩

/-- Claim C10 (confirmed): `get_pixel_at` is a pure function of the
immutable image value — in Rust it takes `&self`, touches no interior
mutability and no global state — so any two calls at the same coordinates
with no intervening mutation produce equal pixels. -/
theorem C10_deterministic (img : ImageData) (x y : Nat) (p q : PixelData)
    (hp : img.get_pixel_at x y = some p) (hq : img.get_pixel_at x y = some q) :
    p = q := by
  rw [hp] at hq
  exact Option.some.inj hq

/-- Witness for C10 at a concrete input: two reads of pixel (0,0) of the
8-bit RGB image agree. -/
theorem C10_deterministic_witness :
    (⟨.Eight, 7, 8, 9, 1⟩ : PixelData) = ⟨.Eight, 7, 8, 9, 1⟩ :=
  C10_deterministic imgRgb8 0 0 _ _ (by decide) (by decide)

end MasterImageHelper

namespace MasterImageHelper

/-- The 8-bit RGBA test image of C5: width `W`, height `H`, buffer of the
nominal size `4 * (W * H)` filled with the pattern `byte[i] = i mod 256`. -/
def patternImage (W H : Nat) : ImageData :=
  ⟨W, H, .Rgba, .Eight, (List.range (4 * (W * H))).map fun i => (⟨i % 256, by omega⟩ : Fin 256)⟩

/-- Reading the pattern buffer at an in-range offset yields `i mod 256`. -/
theorem patternImage_read (W H i : Nat) (h : i < 4 * (W * H)) :
    (patternImage W H).pixels.get? i = some ⟨i % 256, by omega⟩ := by
  simp [patternImage, List.get?_eq_getElem?, List.getElem?_map, List.getElem?_range, h]

/-- Claim C5 (confirmed): on the 8-bit RGBA image whose buffer holds
`byte[i] = i mod 256`, `get_pixel_at (x, y)` returns exactly the four buffer
bytes at offsets `4*(y*W+x)` through `4*(y*W+x)+3` for every in-range
coordinate.  The proof does not need the linear index to fit in `u32`:
because 256 divides 2^32, the wrapped offset is congruent to the exact one
modulo 256 and still lands on the same pattern bytes. -/
theorem C5_rgba8_pattern (W H x y : Nat) (hx : x < W) (hy : y < H) :
    (patternImage W H).get_pixel_at x y =
      some ⟨.Eight, 4 * (y * W + x) % 256, (4 * (y * W + x) + 1) % 256,
        (4 * (y * W + x) + 2) % 256, (4 * (y * W + x) + 3) % 256⟩ := by
  have hn : y * W + x < W * H := by
    calc y * W + x < (y + 1) * W := by rw [Nat.add_mul, Nat.one_mul]; omega
      _ ≤ H * W := Nat.mul_le_mul_right W hy
      _ = W * H := Nat.mul_comm H W
  have hidx : (patternImage W H).pixelIndex x y
      = (y * W + x) % 2 ^ 32 * 4 % 2 ^ 32 := by
    show (y * W + x) % 2 ^ 32 * 4 % 2 ^ 32 * 8 / 8 = _
    omega
  have hlen : (patternImage W H).pixels.length = 4 * (W * H) := by
    simp [patternImage]
  simp only [ImageData.get_pixel_at, hidx, hlen]
  rw [if_neg (by omega)]
  rw [patternImage_read W H _ (by omega), patternImage_read W H _ (by omega),
    patternImage_read W H _ (by omega), patternImage_read W H _ (by omega)]
  simp only [Option.bind_eq_bind, Option.some_bind]
  simp only [patternImage, Option.some.injEq, PixelData.mk.injEq]
  refine ⟨trivial, ?_, ?_, ?_, ?_⟩ <;> omega

/-- Witness for C5 at a concrete input: the 2×2 pattern image at (1, 1),
whose pixel starts at offset 12. -/
theorem C5_rgba8_pattern_witness :
    1 < 2 ∧ (patternImage 2 2).get_pixel_at 1 1 =
      some ⟨.Eight, 4 * (1 * 2 + 1) % 256, (4 * (1 * 2 + 1) + 1) % 256,
        (4 * (1 * 2 + 1) + 2) % 256, (4 * (1 * 2 + 1) + 3) % 256⟩ :=
  ⟨by decide, C5_rgba8_pattern 2 2 1 1 (by decide) (by decide)⟩

/-- Counterexample to claim C7 as stated: on the 1×1 8-bit RGB image with
buffer `[7, 8, 9]`, the out-of-range coordinate (5, 0) computes offset 15,
falls into the bounds fallback and returns the sentinel, whose alpha is 0 —
so `a` is not 1 at every coordinate. -/
theorem C7_sentinel_alpha_zero :
    ∃ p : PixelData, imgRgb8.get_pixel_at 5 0 = some p ∧ p.a = 0 ∧ p.a ≠ 1 :=
  ⟨sentinel, by decide, rfl, by decide⟩

/-- Claim C7 (as amended): for an 8-bit RGB image, at every coordinate whose
computed byte offset does not exceed the buffer length (the non-fallback
path), any pixel `get_pixel_at` returns has alpha exactly 1; the alpha is
the literal constant of the `Rgb` arm and is never read from the buffer.
Out-of-range coordinates fall into the bounds fallback and return the
sentinel, whose alpha is 0. -/
theorem C7_rgb8_alpha_one (img : ImageData) (x y : Nat)
    (hc : img.color = .Rgb) (hd : img.bit_depth = .Eight)
    (hb : img.pixelIndex x y ≤ img.pixels.length)
    (p : PixelData) (hp : img.get_pixel_at x y = some p) :
    p.a = 1 := by
  obtain ⟨w, h, c, bd, px⟩ := img
  obtain rfl : c = .Rgb := hc
  obtain rfl : bd = .Eight := hd
  replace hb : ImageData.pixelIndex ⟨w, h, .Rgb, .Eight, px⟩ x y ≤ px.length := hb
  simp only [ImageData.get_pixel_at] at hp
  rw [if_neg (by omega)] at hp
  simp only [Option.bind_eq_bind, Option.bind_eq_some, Option.some.injEq] at hp
  obtain ⟨b0, h0, b1, h1, b2, h2, rfl⟩ := hp
  rfl

/-- Witness for the amended C7 at a concrete input: pixel (0, 0) of the
1×1 8-bit RGB image `[7, 8, 9]` has alpha 1. -/
theorem C7_rgb8_alpha_one_witness : (PixelData.mk .Eight 7 8 9 1).a = 1 :=
  C7_rgb8_alpha_one imgRgb8 0 0 rfl rfl (by decide) _ (by decide)

/-- Claim C8 (confirmed): for an 8-bit grayscale image, every pixel
`get_pixel_at` returns has `g = 0`, `b = 0` and `a = 0`, whatever the buffer
holds and at every coordinate — the grayscale arm stores the single byte in
`r` and zero constants elsewhere, and the bounds-fallback sentinel also has
`g = b = a = 0`. -/
theorem C8_gray8_zero_channels (img : ImageData) (x y : Nat)
    (hc : img.color = .Grayscale) (hd : img.bit_depth = .Eight)
    (p : PixelData) (hp : img.get_pixel_at x y = some p) :
    p.g = 0 ∧ p.b = 0 ∧ p.a = 0 := by
  obtain ⟨w, h, c, bd, px⟩ := img
  obtain rfl : c = .Grayscale := hc
  obtain rfl : bd = .Eight := hd
  simp only [ImageData.get_pixel_at] at hp
  split at hp
  · cases Option.some.inj hp
    exact ⟨rfl, rfl, rfl⟩
  · simp only [Option.bind_eq_bind, Option.bind_eq_some, Option.some.injEq] at hp
    obtain ⟨b0, h0, rfl⟩ := hp
    exact ⟨rfl, rfl, rfl⟩

/-- Witness for C8 at a concrete input: pixel (0, 0) of the 1×1 8-bit
grayscale image `[42]`. -/
theorem C8_gray8_zero_channels_witness :
    (PixelData.mk .Eight 42 0 0 0).g = 0 ∧ (PixelData.mk .Eight 42 0 0 0).b = 0 ∧
      (PixelData.mk .Eight 42 0 0 0).a = 0 :=
  C8_gray8_zero_channels imgGray8 0 0 rfl rfl _ (by decide)

end MasterImageHelper
